import Mathlib

/-!
Verification of the catalog-reconciliation logic of the
central-texas-with-love repository, embedded from
`src/hooks/useProducts.ts`.

The hook keeps four pieces of state (`products`, `featuredIds`, `loading`,
`error`), starts them at the static catalog / hardcoded default featured ids,
issues one cancellable fetch of `/api/products`, and on a well-formed
non-empty response merges the remote records into the working catalog by
name and recomputes the featured-id set.

The static catalog `fallbackProducts` is imported from `../data/products`,
which is outside the analysed sources; the development is therefore
parameterised over an arbitrary static catalog, so every theorem holds for
the build-time list in particular.  The default featured ids are the
concrete constant from the hook.
-/

/-- A product record.  The reconciler inspects only `id` and `name`; every
other commerce/display attribute (price, description, dimensions, weight,
category, image references) is an opaque payload passed through unchanged,
collapsed here into the single field `payload`. -/
structure Product where
  id : String
  name : String
  payload : String
deriving DecidableEq, Repr

/-- An element of the remote `/api/products` response:
`Product & \x7b featured?: boolean \x7d`.  A missing `featured` property is
falsy in the hook's `data.filter((p) => p.featured)`, so it is modelled as
`featured := false`. -/
structure RemoteRecord where
  product : Product
  featured : Bool
deriving DecidableEq, Repr

/-- The outcome of the single fetch issued by the hook. -/
inductive RemoteResponse where
  /-- The promise chain reaches `catch` with a non-abort error:
  network failure, non-2xx status, or a JSON parse error. -/
  | failure
  /-- The request was aborted by the effect's cleanup (teardown):
  the promise rejects with an `AbortError`. -/
  | aborted
  /-- `res.json()` produced a value that is not an array. -/
  | nonArray
  /-- `res.json()` produced an array of records (possibly empty). -/
  | array (data : List RemoteRecord)
deriving DecidableEq, Repr

/-- `DEFAULT_FEATURED_IDS` from the hook:
`new Set(['u8', 'l5', 'd13', 'd10', 'd6', 'd12'])`. -/
def DEFAULT_FEATURED_IDS : List String := ["u8", "l5", "d13", "d10", "d6", "d12"]

/-- `nonSoldNames`: names of the remote (non-sold) records,
`new Set(data.map((p) => p.name))`; modelled as the list of names, used
only through membership. -/
def nonSoldNames (data : List RemoteRecord) : List String :=
  data.map (fun r => r.product.name)

/-- `staticNames`: names of the static products,
`new Set(fallbackProducts.map((p) => p.name))`. -/
def staticNames (sc : List Product) : List String :=
  sc.map Product.name

/-- `filteredStatic`: static products whose name appears in the remote
response, `fallbackProducts.filter((p) => nonSoldNames.has(p.name))`. -/
def filteredStatic (sc : List Product) (data : List RemoteRecord) : List Product :=
  sc.filter (fun p => decide (p.name ∈ nonSoldNames data))

/-- `newProducts`: remote records whose name is absent from the static
catalog, `data.filter((p) => !staticNames.has(p.name))`. -/
def newProducts (sc : List Product) (data : List RemoteRecord) : List RemoteRecord :=
  data.filter (fun r => decide (r.product.name ∉ staticNames sc))

/-- `merged = [...filteredStatic, ...newProducts]`.  The new remote-only
records enter the catalog with their own fields verbatim. -/
def merged (sc : List Product) (data : List RemoteRecord) : List Product :=
  filteredStatic sc data ++ (newProducts sc data).map RemoteRecord.product

/-- `featuredNames`: names of remote records flagged featured,
`new Set(data.filter((p) => p.featured).map((p) => p.name))`. -/
def featuredNames (data : List RemoteRecord) : List String :=
  (data.filter (fun r => r.featured)).map (fun r => r.product.name)

/-- `featuredFromAirtable`: ids, within the merged catalog, of records whose
name is among the remote featured names,
`new Set(merged.filter((p) => featuredNames.has(p.name)).map((p) => p.id))`. -/
def featuredFromAirtable (sc : List Product) (data : List RemoteRecord) : List String :=
  ((merged sc data).filter (fun p => decide (p.name ∈ featuredNames data))).map Product.id

/-- The hook's state: the four `useState` cells. -/
structure HookState where
  products : List Product
  featuredIds : List String
  loading : Bool
  error : Option String
deriving DecidableEq, Repr

/-- Initial state at mount: static catalog, default featured ids,
`loading = true`, `error = null`. -/
def initialState (sc : List Product) (df : List String) : HookState :=
  { products := sc, featuredIds := df, loading := true, error := none }

/-- A `setXxx` state update.  React applies an update only while the
component is mounted; a setter invoked after unmount (teardown) is
discarded.  `mounted` records whether the component is still mounted when
the callback runs. -/
def setState (mounted : Bool) (f : HookState → HookState) (s : HookState) : HookState :=
  if mounted then f s else s

/-- The success callback of the fetch (the second `.then`): return early on
a non-array or empty payload, otherwise `setProducts(merged)` and, when
`featuredFromAirtable` is non-empty, `setFeaturedIds(featuredFromAirtable)`. -/
def reconcile (sc : List Product) (data : List RemoteRecord) (mounted : Bool)
    (s : HookState) : HookState :=
  if data.isEmpty then s
  else
    let s1 := setState mounted (fun t => { t with products := merged sc data }) s
    if (featuredFromAirtable sc data).isEmpty then s1
    else setState mounted (fun t => { t with featuredIds := featuredFromAirtable sc data }) s1

/-- Settlement of the fetch's promise chain.  `failure` runs the `catch`
branch (`setError('offline')`) and then `finally` (`setLoading(false)`);
`aborted` is an `AbortError`, which the `catch` suppresses, so only
`finally` runs; `nonArray` returns early and runs `finally`; `array data`
runs `reconcile` and then `finally`. -/
def resolve (sc : List Product) (mounted : Bool) (resp : RemoteResponse)
    (s : HookState) : HookState :=
  match resp with
  | .failure =>
      setState mounted (fun t => { t with loading := false })
        (setState mounted (fun t => { t with error := some "offline" }) s)
  | .aborted =>
      setState mounted (fun t => { t with loading := false }) s
  | .nonArray =>
      setState mounted (fun t => { t with loading := false }) s
  | .array data =>
      setState mounted (fun t => { t with loading := false }) (reconcile sc data mounted s)

/-- One full activation of the hook while the component stays mounted:
initial state, then the response settles. -/
def runHook (sc : List Product) (df : List String) (resp : RemoteResponse) : HookState :=
  resolve sc true resp (initialState sc df)

/-- `featuredProducts = products.filter((p) => featuredIds.has(p.id))`. -/
def featuredProducts (s : HookState) : List Product :=
  s.products.filter (fun p => decide (p.id ∈ s.featuredIds))

/-- `getProductById: (id) => products.find((p) => p.id === id)`. -/
def getProductById (products : List Product) (i : String) : Option Product :=
  products.find? (fun p => decide (p.id = i))

/-- `(r.product.name, r.featured)`: the part of a remote record that the
spec's idempotence sentence compares across payloads. -/
def nameFlag (r : RemoteRecord) : String × Bool :=
  (r.product.name, r.featured)

/- Sample data used by witnesses, following the spec's concrete scenario:
static [A, B, C]; remote [\x7bname B\x7d, \x7bname D, featured\x7d]. -/

def pA : Product := { id := "a", name := "A", payload := "static-A" }

def pB : Product := { id := "b", name := "B", payload := "static-B" }

def pC : Product := { id := "c", name := "C", payload := "static-C" }

def sampleStatic : List Product := [pA, pB, pC]

def rB : RemoteRecord :=
  { product := { id := "rb", name := "B", payload := "remote-B" }, featured := false }

def rB2 : RemoteRecord :=
  { product := { id := "rb2", name := "B", payload := "remote-B-alt" }, featured := false }

def rD : RemoteRecord :=
  { product := { id := "d", name := "D", payload := "remote-D" }, featured := true }

def rD2 : RemoteRecord :=
  { product := { id := "d2", name := "D", payload := "remote-D" }, featured := true }

/-! General lemmas about the reconciliation, shared by the claim theorems. -/

/-- On a non-empty array response, the final state is the merged catalog,
the featured ids chosen by the `featuredFromAirtable.size > 0` test,
`loading = false` and `error = null`. -/
theorem runHook_array (sc : List Product) (df : List String) (data : List RemoteRecord)
    (hne : data ≠ []) :
    runHook sc df (.array data) =
      { products := merged sc data,
        featuredIds :=
          if (featuredFromAirtable sc data).isEmpty then df else featuredFromAirtable sc data,
        loading := false, error := none } := by
  cases data with
  | nil => exact absurd rfl hne
  | cons a l =>
      show resolve sc true (.array (a :: l)) (initialState sc df) = _
      simp only [resolve, reconcile, setState, List.isEmpty_cons, Bool.false_eq_true,
        if_false, if_true]
      split <;> rfl

/-- Membership in `featuredFromAirtable`: exactly the ids of merged-catalog
records whose name carries a remote featured flag. -/
theorem mem_featuredFromAirtable (sc : List Product) (data : List RemoteRecord) (i : String) :
    i ∈ featuredFromAirtable sc data ↔
      ∃ p ∈ merged sc data, p.id = i ∧ p.name ∈ featuredNames data := by
  simp only [featuredFromAirtable, List.mem_map, List.mem_filter, decide_eq_true_eq]
  constructor
  · rintro ⟨p, ⟨hp, hn⟩, hi⟩
    exact ⟨p, hp, hi, hn⟩
  · rintro ⟨p, hp, hi, hn⟩
    exact ⟨p, ⟨hp, hn⟩, hi⟩

/-- Every remote record flagged featured has a name that occurs in the
merged catalog: if the name is shared with a static product, that static
product is retained; otherwise the record itself enters as a new product. -/
theorem featured_name_in_merged (sc : List Product) (data : List RemoteRecord)
    (r : RemoteRecord) (hr : r ∈ data) :
    ∃ p ∈ merged sc data, p.name = r.product.name := by
  by_cases hs : r.product.name ∈ staticNames sc
  · obtain ⟨q, hq, hqname⟩ := List.mem_map.mp hs
    refine ⟨q, List.mem_append_left _ ?_, hqname⟩
    refine List.mem_filter.mpr ⟨hq, ?_⟩
    simp only [decide_eq_true_eq, hqname]
    exact List.mem_map_of_mem _ hr
  · refine ⟨r.product, List.mem_append_right _ ?_, rfl⟩
    refine List.mem_map_of_mem _ ?_
    exact List.mem_filter.mpr ⟨hr, by simpa using hs⟩

/-! The claim theorems. -/

/-- C1: Fallback invariant — for every remote response that is a failure,
an abort, an empty array, or a non-array value, the reconciler applies no
mutation: the resulting catalog equals the static catalog exactly and the
featured-id set equals the default featured set, whether or not the
component is still mounted when the response settles. -/
theorem fallback_invariant (sc : List Product) (df : List String) (m : Bool)
    (resp : RemoteResponse)
    (h : resp = .failure ∨ resp = .aborted ∨ resp = .nonArray ∨ resp = .array []) :
    (resolve sc m resp (initialState sc df)).products = sc ∧
    (resolve sc m resp (initialState sc df)).featuredIds = df := by
  rcases h with h | h | h | h <;> subst h <;>
    cases m <;> simp [resolve, setState, reconcile, initialState]

/-- Witness for C1 at the failed-fetch response on the sample catalog. -/
theorem fallback_invariant_witness :
    (resolve sampleStatic true .failure
        (initialState sampleStatic DEFAULT_FEATURED_IDS)).products = sampleStatic ∧
    (resolve sampleStatic true .failure
        (initialState sampleStatic DEFAULT_FEATURED_IDS)).featuredIds = DEFAULT_FEATURED_IDS :=
  fallback_invariant sampleStatic DEFAULT_FEATURED_IDS true .failure (Or.inl rfl)

/-- C7: Lookup accessor totality — `getProductById` returns a matching
product exactly when one exists in the catalog, and the explicit absent
result `none` exactly when no record has the id; it never produces a
placeholder. -/
theorem getProductById_total (ps : List Product) (i : String) :
    (∀ p : Product, getProductById ps i = some p → p ∈ ps ∧ p.id = i) ∧
    (getProductById ps i = none ↔ ∀ p ∈ ps, p.id ≠ i) ∧
    ((∃ p ∈ ps, p.id = i) → ∃ p, getProductById ps i = some p ∧ p ∈ ps ∧ p.id = i) := by
  refine ⟨?_, ?_, ?_⟩
  · intro p hp
    exact ⟨List.mem_of_find?_eq_some hp, by simpa using List.find?_some hp⟩
  · rw [getProductById, List.find?_eq_none]
    simp
  · rintro ⟨p, hmem, hid⟩
    cases hfind : getProductById ps i with
    | none =>
        rw [getProductById, List.find?_eq_none] at hfind
        exact absurd hid (by simpa using hfind p hmem)
    | some q =>
        exact ⟨q, rfl, List.mem_of_find?_eq_some hfind, by simpa using List.find?_some hfind⟩

/-- Witness for C7: looking up id `b` in the sample catalog finds the
static product `pB`, a member with that id. -/
theorem getProductById_total_witness : pB ∈ sampleStatic ∧ pB.id = "b" :=
  (getProductById_total sampleStatic "b").1 pB (by decide)

/-- C8: Cancellation safety — when teardown happens before the response
arrives, the component is unmounted by the time any promise callback runs,
so no state mutation is applied: whatever the response would have been,
the state at teardown time is preserved unchanged (the `catch` suppresses
the `AbortError`, and every setter after unmount is discarded). -/
theorem cancellation_safety (sc : List Product) (resp : RemoteResponse) (s : HookState) :
    resolve sc false resp s = s := by
  cases resp <;> simp [resolve, setState, reconcile]

/-- C9: Transport-failure signalling — on a rejected fetch (network error
or non-2xx status) the catalog stays the full static catalog, the featured
set stays the default ids, `error` becomes a non-null diagnostic and
`loading` transitions to false. -/
theorem transport_failure_signalling (sc : List Product) (df : List String) :
    (runHook sc df .failure).products = sc ∧
    (runHook sc df .failure).featuredIds = df ∧
    (runHook sc df .failure).error ≠ none ∧
    (runHook sc df .failure).loading = false := by
  simp [runHook, resolve, setState, initialState]

/-- C10: Implicit featured-subset invariant — in every hook state,
`featuredProducts` is exactly the subsequence of the current catalog whose
ids belong to the current featured-id set, in catalog order; in particular
it is a subset of `products`, and a featured id with no product in the
catalog contributes nothing. -/
theorem featured_subset_invariant (s : HookState) :
    (featuredProducts s).Sublist s.products ∧
    (∀ p : Product, p ∈ featuredProducts s ↔ p ∈ s.products ∧ p.id ∈ s.featuredIds) ∧
    (∀ i : String, i ∈ s.featuredIds → (∀ p ∈ s.products, p.id ≠ i) →
      ∀ p ∈ featuredProducts s, p.id ≠ i) := by
  refine ⟨List.filter_sublist _, ?_, ?_⟩
  · intro p
    simp [featuredProducts, List.mem_filter]
  · intro i _ habs p hp
    exact habs p (List.mem_of_mem_filter hp)

/-- Witness for C10: in the initial sample state with featured id `b`, the
product `pB` is a featured product. -/
theorem featured_subset_invariant_witness :
    pB ∈ featuredProducts (initialState sampleStatic ["b"]) :=
  ((featured_subset_invariant (initialState sampleStatic ["b"])).2.1 pB).mpr
    ⟨by decide, by decide⟩

/-- C2: Retention rule — for a non-empty remote payload, the static-derived
segment of the merged catalog is a subsequence of the static catalog (so in
original static order) containing exactly the static records whose name
occurs among the remote names: every such record with its full
multiplicity, and nothing else. -/
theorem retention_rule (sc : List Product) (data : List RemoteRecord) (_hne : data ≠ []) :
    merged sc data = filteredStatic sc data ++ (newProducts sc data).map RemoteRecord.product ∧
    (filteredStatic sc data).Sublist sc ∧
    (∀ p : Product, p ∈ filteredStatic sc data ↔ p ∈ sc ∧ p.name ∈ nonSoldNames data) ∧
    (∀ p : Product, p.name ∈ nonSoldNames data →
      (filteredStatic sc data).count p = sc.count p) ∧
    (∀ p : Product, p.name ∉ nonSoldNames data → (filteredStatic sc data).count p = 0) := by
  refine ⟨rfl, List.filter_sublist sc, ?_, ?_, ?_⟩
  · intro p
    simp [filteredStatic, List.mem_filter]
  · intro p hp
    exact List.count_filter (by simpa using hp)
  · intro p hp
    refine List.count_eq_zero.mpr ?_
    intro hmem
    exact hp ((List.mem_filter.mp hmem).2 |> decide_eq_true_eq.mp)

/-- Witness for C2 on the spec's concrete scenario: with remote names
B and D, the static record `pB` is retained and `pA` is not. -/
theorem retention_rule_witness :
    (pB ∈ sampleStatic ∧ pB.name ∈ nonSoldNames [rB, rD]) ∧
    (filteredStatic sampleStatic [rB, rD]).count pA = 0 :=
  ⟨((retention_rule sampleStatic [rB, rD] (by decide)).2.2.1 pB).mp (by decide),
    (retention_rule sampleStatic [rB, rD] (by decide)).2.2.2.2 pA (by decide)⟩

/-- C3: New-product inclusion and catalog order — for a non-empty remote
payload, every remote record whose name is absent from the static catalog
appears in the merged catalog with its own fields verbatim, and the merged
catalog is exactly the retained-static segment followed by the remote-only
records, each segment preserving its source order (subsequence of its
source). -/
theorem new_product_inclusion (sc : List Product) (data : List RemoteRecord) (_hne : data ≠ []) :
    (∀ r ∈ data, r.product.name ∉ staticNames sc → r.product ∈ merged sc data) ∧
    merged sc data = filteredStatic sc data ++ (newProducts sc data).map RemoteRecord.product ∧
    (∀ r : RemoteRecord,
      r ∈ newProducts sc data ↔ r ∈ data ∧ r.product.name ∉ staticNames sc) ∧
    (filteredStatic sc data).Sublist sc ∧
    ((newProducts sc data).map RemoteRecord.product).Sublist (data.map RemoteRecord.product) := by
  refine ⟨?_, rfl, ?_, List.filter_sublist sc, List.Sublist.map _ (List.filter_sublist data)⟩
  · intro r hr hname
    refine List.mem_append_right _ (List.mem_map_of_mem _ ?_)
    exact List.mem_filter.mpr ⟨hr, by simpa using hname⟩
  · intro r
    simp [newProducts, List.mem_filter]

/-- Witness for C3: the remote-only record `rD` (name D, absent from the
static catalog) appears in the merged catalog with its own fields. -/
theorem new_product_inclusion_witness :
    rD.product ∈ merged sampleStatic [rB, rD] :=
  (new_product_inclusion sampleStatic [rB, rD] (by decide)).1 rD (by decide) (by decide)

/-- C4: Static-wins-on-conflict — for every name present in both the static
and the remote catalogs, the merged catalog's records carrying that name
are exactly the static catalog's records carrying it, unchanged by whatever
fields the remote record of the same name carries. -/
theorem static_wins_on_conflict (sc : List Product) (data : List RemoteRecord) (n : String)
    (hs : n ∈ staticNames sc) (hr : n ∈ nonSoldNames data) :
    (merged sc data).filter (fun p => decide (p.name = n)) =
      sc.filter (fun p => decide (p.name = n)) := by
  have hnew : ((newProducts sc data).map RemoteRecord.product).filter
      (fun p => decide (p.name = n)) = [] := by
    refine List.filter_eq_nil_iff.mpr ?_
    intro p hp
    obtain ⟨r, hrmem, rfl⟩ := List.mem_map.mp hp
    have habs : r.product.name ∉ staticNames sc := by
      simpa using (List.mem_filter.mp hrmem).2
    simp only [decide_eq_true_eq]
    intro he
    exact habs (he ▸ hs)
  have hstat : (filteredStatic sc data).filter (fun p => decide (p.name = n)) =
      sc.filter (fun p => decide (p.name = n)) := by
    rw [filteredStatic, List.filter_filter]
    refine List.filter_congr ?_
    intro p _
    by_cases h : p.name = n
    · simp [h, hr]
    · simp [h]
  rw [merged, List.filter_append, hnew, hstat, List.append_nil]

/-- Witness for C4 at the shared name B of the concrete scenario: the
merged catalog's B-record is the static `pB`, not the remote variant. -/
theorem static_wins_on_conflict_witness :
    (merged sampleStatic [rB, rD]).filter (fun p => decide (p.name = "B")) =
      sampleStatic.filter (fun p => decide (p.name = "B")) :=
  static_wins_on_conflict sampleStatic [rB, rD] "B" (by decide) (by decide)

/-- C5: Featured precedence — for a non-empty remote payload, if some
remote record is flagged featured, the resulting featured-id set is exactly
the ids, within the merged catalog, of records whose name is among the
remote-featured names (the default set is replaced entirely); if no remote
record is featured, the featured set stays the default set. -/
theorem featured_precedence (sc : List Product) (df : List String)
    (data : List RemoteRecord) (hne : data ≠ []) :
    ((∃ r ∈ data, r.featured = true) →
      ∀ i : String,
        i ∈ (runHook sc df (.array data)).featuredIds ↔
          ∃ p ∈ merged sc data, p.id = i ∧ p.name ∈ featuredNames data) ∧
    ((∀ r ∈ data, r.featured = false) →
      (runHook sc df (.array data)).featuredIds = df) := by
  constructor
  · rintro ⟨r, hr, hf⟩ i
    have hname : r.product.name ∈ featuredNames data := by
      simp only [featuredNames, List.mem_map, List.mem_filter]
      exact ⟨r, ⟨hr, hf⟩, rfl⟩
    obtain ⟨p, hp, hpn⟩ := featured_name_in_merged sc data r hr
    have hmemffa : p.id ∈ featuredFromAirtable sc data :=
      (mem_featuredFromAirtable sc data p.id).mpr ⟨p, hp, rfl, hpn ▸ hname⟩
    have hffne : featuredFromAirtable sc data ≠ [] := List.ne_nil_of_mem hmemffa
    have hemp : (featuredFromAirtable sc data).isEmpty = false := by
      cases hcase : (featuredFromAirtable sc data).isEmpty
      · rfl
      · exact absurd (List.isEmpty_iff.mp hcase) hffne
    rw [runHook_array sc df data hne]
    simp only [hemp, Bool.false_eq_true, if_false]
    exact mem_featuredFromAirtable sc data i
  · intro hall
    have hfn : featuredNames data = [] := by
      simp only [featuredNames, List.map_eq_nil_iff, List.filter_eq_nil_iff]
      intro a ha
      simp [hall a ha]
    have hffa : featuredFromAirtable sc data = [] := by
      simp [featuredFromAirtable, hfn]
    rw [runHook_array sc df data hne]
    simp [hffa]

/-- Witness for C5 on the concrete scenario: with remote records B and
D(featured), the id `d` of the merged record D is featured, and it is the
only featured id while `b` is not; the hypothesis side is discharged by the
record `rD`. -/
theorem featured_precedence_witness :
    "d" ∈ (runHook sampleStatic DEFAULT_FEATURED_IDS (.array [rB, rD])).featuredIds :=
  ((featured_precedence sampleStatic DEFAULT_FEATURED_IDS [rB, rD] (by decide)).1
      ⟨rD, by decide, rfl⟩ "d").mpr ⟨rD.product, by decide, rfl, by decide⟩

/-- C6, counterexample: two remote payloads identical in names and featured
flags but differing in the id of a remote-only record reconcile to
different catalogs and featured sets, so equality of names and flags alone
does not make reconciliation results equal. -/
theorem idempotence_counterexample :
    [rD].map nameFlag = [rD2].map nameFlag ∧ ([rD] : List RemoteRecord) ≠ [] ∧
    runHook sampleStatic DEFAULT_FEATURED_IDS (.array [rD]) ≠
      runHook sampleStatic DEFAULT_FEATURED_IDS (.array [rD2]) := by
  decide

/-- C6, amended: reconciling the fixed static catalog with a remote payload
identical in names and featured flags to a previously reconciled payload —
and identical on the records whose names are absent from the static catalog
— yields the same merged catalog and the same featured-id set; moreover one
success callback is idempotent on the state, so repeated identical merges
cause no drift. -/
theorem idempotence_no_new_data (sc : List Product) (df : List String)
    (d1 d2 : List RemoteRecord) (hne : d1 ≠ [])
    (hnf : d1.map nameFlag = d2.map nameFlag)
    (hnew : newProducts sc d1 = newProducts sc d2) :
    runHook sc df (.array d1) = runHook sc df (.array d2) ∧
    ∀ (data : List RemoteRecord) (m : Bool) (s : HookState),
      reconcile sc data m (reconcile sc data m s) = reconcile sc data m s := by
  constructor
  · have h2 : d2 ≠ [] := by
      intro h
      subst h
      simp only [List.map_nil, List.map_eq_nil_iff] at hnf
      exact hne hnf
    have hnames : nonSoldNames d1 = nonSoldNames d2 := by
      have h := congrArg (List.map Prod.fst) hnf
      simpa [nonSoldNames, List.map_map, Function.comp, nameFlag] using h
    have hfeat : featuredNames d1 = featuredNames d2 := by
      have h := congrArg (fun l => (List.filter (fun x : String × Bool => x.2) l).map Prod.fst) hnf
      simpa [featuredNames, List.filter_map, Function.comp, nameFlag, List.map_map] using h
    have hfs : filteredStatic sc d1 = filteredStatic sc d2 := by
      rw [filteredStatic, filteredStatic, hnames]
    have hm : merged sc d1 = merged sc d2 := by
      rw [merged, merged, hfs, hnew]
    have hffa : featuredFromAirtable sc d1 = featuredFromAirtable sc d2 := by
      rw [featuredFromAirtable, featuredFromAirtable, hm, hfeat]
    rw [runHook_array sc df d1 hne, runHook_array sc df d2 h2, hm, hffa]
  · intro data m s
    by_cases hd : data.isEmpty
    · simp [reconcile, hd]
    · cases m
      · simp [reconcile, setState, hd]
      · by_cases hf : (featuredFromAirtable sc data).isEmpty <;>
          simp [reconcile, setState, hd, hf]

/-- Witness for the amended C6: the payloads [rB, rD] and [rB2, rD] agree
on names, flags and remote-only records (rB and rB2 differ only in fields
of a product whose name B is already static), and reconcile identically. -/
theorem idempotence_no_new_data_witness :
    runHook sampleStatic DEFAULT_FEATURED_IDS (.array [rB, rD]) =
      runHook sampleStatic DEFAULT_FEATURED_IDS (.array [rB2, rD]) :=
  (idempotence_no_new_data sampleStatic DEFAULT_FEATURED_IDS [rB, rD] [rB2, rD]
    (by decide) (by decide) (by decide)).1
